import Mathlib

/-!
Shallow embedding of the retry/backoff module of the whatsapp-backend
service (`src/utils/retry.util.ts`), together with theorems checking the
natural-language specification of that module.

Modelling conventions:
* A JavaScript error object is modelled by the fields the module reads:
  `error.code` (optional string), `error.response?.status` (optional natural
  number) and `error.message` (optional string).
* JavaScript numbers used in delay computation are modelled by `ℚ`;
  `Math.floor` is `Int.floor`, `Math.random()` is an explicit parameter
  `rand` (one rational draw per attempt), `Math.min` is `min`.
* `async` operations are modelled as pure functions from the (1-based)
  attempt number to `Except E A`: the outcome the promise would settle with
  on that invocation.  The executor returns the final outcome, the number
  of invocations performed, and the list of delays slept (in order).
-/

namespace RetryUtil

/-- The shape of a JavaScript error object as read by the retry module:
`code`, `response?.status` and `message`. -/
structure JsError where
  code : Option String
  status : Option Nat
  message : Option String
deriving DecidableEq, Repr

/-- Retry policy, from the `RetryConfig` interface.  `maxRetries` is a
non-negative integer; the delay fields and the multiplier are JS numbers,
modelled by `ℚ`. -/
structure RetryConfig where
  maxRetries : Nat
  baseDelayMs : ℚ
  maxDelayMs : ℚ
  backoffMultiplier : ℚ
  jitterEnabled : Bool

/-- `calculateDelay(attempt, config)` from the source, with the
`Math.random()` draw made explicit as `rand`:
`delay = baseDelayMs * backoffMultiplier^(attempt-1)`;
`delay = Math.min(delay, maxDelayMs)`;
if jitter is enabled `delay += delay * 0.1 * rand`; finally
`Math.floor(delay)`. -/
def calculateDelay (attempt : Nat) (config : RetryConfig) (rand : ℚ) : Int :=
  let delay1 := config.baseDelayMs * config.backoffMultiplier ^ (attempt - 1)
  let delay2 := min delay1 config.maxDelayMs
  let delay3 := if config.jitterEnabled then delay2 + delay2 * (1 / 10) * rand else delay2
  ⌊delay3⌋

/-- The capped (pre-jitter) backoff value
`min(baseDelayMs * backoffMultiplier^(attempt-1), maxDelayMs)`;
this is the value `calculateDelay` holds just before the jitter step. -/
def backoffCap (config : RetryConfig) (attempt : Nat) : ℚ :=
  min (config.baseDelayMs * config.backoffMultiplier ^ (attempt - 1)) config.maxDelayMs

/-- `shouldRetryHttpError(error)` from the source, line for line:
network codes first, then absence of a status, then 5xx, 429, 408, then the
4xx denylist, then the fail-open `return true`. -/
def shouldRetryHttpError (e : JsError) : Bool :=
  if e.code = some "ECONNRESET" ∨ e.code = some "ENOTFOUND" ∨ e.code = some "ECONNREFUSED" then
    true
  else
    match e.status with
    | none => true
    | some status =>
      if 500 ≤ status then true
      else if status = 429 then true
      else if status = 408 then true
      else if 400 ≤ status ∧ status < 500 then
        ¬ ([400, 401, 403, 404, 422].contains status)
      else true

/-- `s.toLowerCase()`: lower-casing applied to every character.  (Stated on
the character list so that it evaluates by kernel reduction; extensionally
this is `String.toLower`.) -/
def jsToLower (s : String) : String :=
  ⟨s.data.map Char.toLower⟩

/-- `error.message?.toLowerCase() || ''` from the source. -/
def errorMessageOf (e : JsError) : String :=
  ((e.message.map jsToLower).getD "")

/-- Substring search over character lists: does `needle` occur as a
contiguous run of `hay`?  `List.isPrefixOf` is checked at every suffix. -/
def substrSearch (needle : List Char) : List Char → Bool
  | [] => List.isPrefixOf needle []
  | c :: cs => List.isPrefixOf needle (c :: cs) || substrSearch needle cs

/-- `errorMessage.includes(msg)` from the source: substring containment. -/
def messageHasSubstr (hay needle : String) : Bool :=
  substrSearch needle.data hay.data

/-- The Cronhooks non-retryable message denylist from the source. -/
def cronhooksNonRetryableMessages : List String :=
  ["invalid api key", "unauthorized", "forbidden", "invalid schedule format",
   "invalid cron expression"]

/-- The Wasender non-retryable message denylist from the source. -/
def wasenderNonRetryableMessages : List String :=
  ["invalid token", "unauthorized", "forbidden", "invalid phone number",
   "session not found", "session not connected"]

/-- `shouldRetryCronhooksError(error)` from the source: HTTP-level
classification first, then the message-substring denylist. -/
def shouldRetryCronhooksError (e : JsError) : Bool :=
  if ¬ shouldRetryHttpError e then false
  else
    let errorMessage := errorMessageOf e
    ¬ (cronhooksNonRetryableMessages.any fun msg => messageHasSubstr errorMessage msg)

/-- `shouldRetryWasenderError(error)` from the source: HTTP-level
classification first, then the message-substring denylist. -/
def shouldRetryWasenderError (e : JsError) : Bool :=
  if ¬ shouldRetryHttpError e then false
  else
    let errorMessage := errorMessageOf e
    ¬ (wasenderNonRetryableMessages.any fun msg => messageHasSubstr errorMessage msg)

/-- Observable trace of one `executeWithRetry` invocation: the settled
outcome, the number of invocations of the wrapped operation, and the delays
slept between attempts, in order. -/
structure RetryResult (E A : Type) where
  outcome : Except E A
  attempts : Nat
  delays : List Int
deriving Repr

/-- `options.shouldRetry && !options.shouldRetry(error)` from the source:
a supplied predicate returning `false` vetoes the retry. -/
def predicateVetoes {E : Type} (p : Option (E → Bool)) (e : E) : Bool :=
  match p with
  | some f => ! f e
  | none => false

/-- The `for (attempt = 1; attempt <= maxRetries + 1; attempt++)` loop of
`executeWithRetry`, with `remaining = maxRetries + 1 - attempt` as the
structural fuel.  On success the result is returned at once; on failure the
last allowed attempt rethrows (`attempt > config.maxRetries`), a vetoing
predicate rethrows, and otherwise `calculateDelay(attempt)` is slept and the
loop continues with `attempt + 1`. -/
def retryLoop {E A : Type} (op : Nat → Except E A) (p : Option (E → Bool))
    (config : RetryConfig) (rand : Nat → ℚ) : Nat → Nat → RetryResult E A
  | attempt, 0 =>
    match op attempt with
    | Except.ok a => ⟨Except.ok a, attempt, []⟩
    | Except.error e => ⟨Except.error e, attempt, []⟩
  | attempt, r + 1 =>
    match op attempt with
    | Except.ok a => ⟨Except.ok a, attempt, []⟩
    | Except.error e =>
      if predicateVetoes p e then ⟨Except.error e, attempt, []⟩
      else
        let d := calculateDelay attempt config (rand attempt)
        let rest := retryLoop op p config rand (attempt + 1) r
        ⟨rest.outcome, rest.attempts, d :: rest.delays⟩

/-- `executeWithRetry(options)` from the source: run the loop starting at
attempt 1 with `maxRetries` further attempts allowed. -/
def executeWithRetry {E A : Type} (op : Nat → Except E A) (p : Option (E → Bool))
    (config : RetryConfig) (rand : Nat → ℚ) : RetryResult E A :=
  retryLoop op p config rand 1 config.maxRetries

/-- One entry of the `operations` array passed to
`executeMultipleWithRetry`: the operation, its diagnostic name, and its
(already merged) retry configuration. -/
structure OpSpec (E A : Type) where
  operation : Nat → Except E A
  name : String
  config : RetryConfig

/-- `Promise.all` on settled outcomes, in array order: the list of values
when all fulfil, otherwise the error of the first rejected entry. -/
def promiseAll {E A : Type} : List (Except E A) → Except E (List A)
  | [] => Except.ok []
  | Except.error e :: _ => Except.error e
  | Except.ok a :: rest =>
    match promiseAll rest with
    | Except.ok as => Except.ok (a :: as)
    | Except.error e => Except.error e

/-- The per-operation executor runs performed by `executeMultipleWithRetry`:
`operations.map(op => this.executeWithRetry({operation, operationName,
...fullConfig}))` — note that no `shouldRetry` predicate is passed.  `rand`
supplies one jitter stream per operation index. -/
def executeMultipleRuns {E A : Type} (ops : List (OpSpec E A))
    (rand : Nat → Nat → ℚ) : List (RetryResult E A) :=
  ops.enum.map fun pr => executeWithRetry pr.2.operation none pr.2.config (rand pr.1)

/-- `executeMultipleWithRetry(operations)` from the source:
`Promise.all` over the mapped retry executions. -/
def executeMultipleWithRetry {E A : Type} (ops : List (OpSpec E A))
    (rand : Nat → Nat → ℚ) : Except E (List A) :=
  promiseAll ((executeMultipleRuns ops rand).map RetryResult.outcome)

example : shouldRetryHttpError ⟨none, some 402, none⟩ = true := by decide
example : shouldRetryHttpError ⟨none, some 404, none⟩ = false := by decide
example : shouldRetryHttpError ⟨some "ECONNRESET", some 404, none⟩ = true := by decide
example : shouldRetryHttpError ⟨none, none, none⟩ = true := by decide
example : shouldRetryHttpError ⟨none, some 503, none⟩ = true := by decide
example : shouldRetryCronhooksError ⟨none, some 503, some "Invalid CRON expression"⟩ = false := by
  decide

example :
    executeWithRetry (E := Nat) (A := Nat) (fun k => Except.error k) none
      ⟨3, 1000, 30000, 2, false⟩ (fun _ => 0) =
    ⟨Except.error 4, 4, [1000, 2000, 4000]⟩ := by
  norm_num [executeWithRetry, retryLoop, calculateDelay, predicateVetoes]

/-! ## Helper lemmas about the retry loop -/

/-- If every invocation fails and the predicate never vetoes, the loop
consumes its whole fuel and ends with the error of the last invocation. -/
theorem retryLoop_always_error {E A : Type} (op : Nat → Except E A)
    (p : Option (E → Bool)) (config : RetryConfig) (rand : Nat → ℚ) (errs : Nat → E)
    (hop : ∀ k, op k = Except.error (errs k))
    (hp : ∀ f e, p = some f → f e = true) :
    ∀ r attempt,
      (retryLoop op p config rand attempt r).outcome = Except.error (errs (attempt + r)) ∧
      (retryLoop op p config rand attempt r).attempts = attempt + r := by
  intro r
  induction r with
  | zero =>
    intro attempt
    simp [retryLoop, hop attempt]
  | succ r ih =>
    intro attempt
    have hv : predicateVetoes p (errs attempt) = false := by
      cases p with
      | none => rfl
      | some f => simp [predicateVetoes, hp f (errs attempt) rfl]
    have h := ih (attempt + 1)
    simp only [retryLoop, hop attempt, hv, Bool.false_eq_true, if_false]
    rw [show attempt + (r + 1) = (attempt + 1) + r by omega]
    exact ⟨h.1, h.2⟩

/-- If the first `k` invocations (counting from `attempt`) fail without a
predicate veto and invocation `attempt + k` succeeds, the loop returns that
success and stops after `attempt + k` invocations. -/
theorem retryLoop_succeeds {E A : Type} (op : Nat → Except E A)
    (p : Option (E → Bool)) (config : RetryConfig) (rand : Nat → ℚ) (errs : Nat → E)
    (a : A) :
    ∀ k r attempt, k ≤ r →
      (∀ j, attempt ≤ j → j < attempt + k → op j = Except.error (errs j)) →
      op (attempt + k) = Except.ok a →
      (∀ f j, p = some f → attempt ≤ j → j < attempt + k → f (errs j) = true) →
      (retryLoop op p config rand attempt r).outcome = Except.ok a ∧
      (retryLoop op p config rand attempt r).attempts = attempt + k := by
  intro k
  induction k with
  | zero =>
    intro r attempt _ _ hsucc _
    rw [Nat.add_zero] at hsucc
    cases r with
    | zero => simp [retryLoop, hsucc]
    | succ r => simp [retryLoop, hsucc]
  | succ k ih =>
    intro r attempt hkr hfail hsucc hp
    obtain ⟨r', rfl⟩ : ∃ r', r = r' + 1 := ⟨r - 1, by omega⟩
    have hfa : op attempt = Except.error (errs attempt) :=
      hfail attempt (Nat.le_refl _) (by omega)
    have hv : predicateVetoes p (errs attempt) = false := by
      cases p with
      | none => rfl
      | some f => simp [predicateVetoes, hp f attempt rfl (Nat.le_refl _) (by omega)]
    have h := ih r' (attempt + 1) (by omega)
      (fun j h1 h2 => hfail j (by omega) (by omega))
      (by rw [show attempt + 1 + k = attempt + (k + 1) by omega]; exact hsucc)
      (fun f j hf h1 h2 => hp f j hf (by omega) (by omega))
    simp only [retryLoop, hfa, hv, Bool.false_eq_true, if_false]
    refine ⟨h.1, ?_⟩
    rw [h.2]; omega

/-- The `i`-th delay slept by the loop (0-based) is `calculateDelay` at
attempt `attempt + i`. -/
theorem retryLoop_delays_get {E A : Type} (op : Nat → Except E A)
    (p : Option (E → Bool)) (config : RetryConfig) (rand : Nat → ℚ) :
    ∀ r attempt i, i < (retryLoop op p config rand attempt r).delays.length →
      (retryLoop op p config rand attempt r).delays[i]? =
        some (calculateDelay (attempt + i) config (rand (attempt + i))) := by
  intro r
  induction r with
  | zero =>
    intro attempt i h
    exfalso
    revert h
    cases hov : op attempt <;> simp [retryLoop, hov]
  | succ r ih =>
    intro attempt i h
    cases hov : op attempt with
    | ok a => simp [retryLoop, hov] at h
    | error e =>
      cases hv : predicateVetoes p e with
      | true => simp [retryLoop, hov, hv] at h
      | false =>
        simp only [retryLoop, hov, hv, Bool.false_eq_true, if_false] at h ⊢
        match i with
        | 0 => simp
        | i + 1 =>
          simp only [List.length_cons, Nat.add_lt_add_iff_right] at h
          have hr := ih (attempt + 1) i h
          simp only [List.getElem?_cons_succ, hr]
          rw [show attempt + 1 + i = attempt + (i + 1) by omega]

/-- A decided universal negation over a list is the boolean negation of
`List.any`. -/
theorem decide_forall_eq_not_any {α : Type} (l : List α) (g : α → Bool) :
    decide (∀ x ∈ l, g x = false) = ! l.any g := by
  cases ha : l.any g with
  | false =>
    have hall : ∀ x ∈ l, g x = false := by
      intro x hx
      cases hgx : g x with
      | false => rfl
      | true => exact absurd (List.any_eq_true.2 ⟨x, hx, hgx⟩) (by simp [ha])
    simp only [ha, Bool.not_false, decide_eq_true_eq]
    exact hall
  | true =>
    have : ¬ (∀ x ∈ l, g x = false) := by
      obtain ⟨x, hx, hgx⟩ := List.any_eq_true.1 ha
      intro hall
      rw [hall x hx] at hgx
      cases hgx
    simp [this]

/-- `Promise.all` over a list of fulfilled outcomes yields the values. -/
theorem promiseAll_map_ok {E A : Type} :
    ∀ vs : List A, promiseAll (E := E) (vs.map Except.ok) = Except.ok vs
  | [] => rfl
  | v :: vs => by simp [promiseAll, promiseAll_map_ok vs]

/-- If some entry is rejected, `Promise.all` rejects with the error of one
of the rejected entries. -/
theorem promiseAll_error_mem {E A : Type} :
    ∀ xs : List (Except E A), (∃ e, Except.error e ∈ xs) →
      ∃ e2, promiseAll xs = Except.error e2 ∧ Except.error e2 ∈ xs := by
  intro xs
  induction xs with
  | nil => rintro ⟨e, h⟩; cases h
  | cons x xs ih =>
    rintro ⟨e, h⟩
    cases x with
    | error e0 => exact ⟨e0, rfl, List.mem_cons_self _ _⟩
    | ok a =>
      have hx : ∃ e, Except.error e ∈ xs := by
        rcases List.mem_cons.1 h with h1 | h2
        · exact absurd h1 (by simp)
        · exact ⟨e, h2⟩
      obtain ⟨e2, he2, hmem⟩ := ih hx
      exact ⟨e2, by simp [promiseAll, he2], List.mem_cons_of_mem _ hmem⟩

/-! ## Claim theorems: error classification -/

/-- C1 counterexample: the claim says every 4xx status other than 408 and
429 is non-retryable, but the code retries 402 (only the explicit denylist
is refused), and an error carrying both a network code and a 404 status is
also retried. -/
theorem shouldRetryHttpError_4xx_cex :
    shouldRetryHttpError ⟨none, some 402, none⟩ = true ∧
    shouldRetryHttpError ⟨some "ECONNRESET", some 404, none⟩ = true := by decide

/-- C1 (amended): for an error without an always-retryable network code,
a status in the explicit denylist {400, 401, 403, 404, 422} is not retried;
every other 4xx status (besides 408 and 429) IS retried. -/
theorem shouldRetryHttpError_denylist (e : JsError) (s : Nat)
    (hc1 : e.code ≠ some "ECONNRESET") (hc2 : e.code ≠ some "ENOTFOUND")
    (hc3 : e.code ≠ some "ECONNREFUSED") (hs : e.status = some s) :
    (s ∈ [400, 401, 403, 404, 422] → shouldRetryHttpError e = false) ∧
    (400 ≤ s → s < 500 → s ∉ [400, 401, 403, 404, 422] →
      shouldRetryHttpError e = true) := by
  constructor
  · intro hmem
    simp only [List.mem_cons, List.not_mem_nil, or_false] at hmem
    rcases hmem with rfl | rfl | rfl | rfl | rfl <;>
      simp [shouldRetryHttpError, hs, hc1, hc2, hc3]
  · intro h1 h2 h3
    have hn5 : ¬ 500 ≤ s := by omega
    simp only [List.mem_cons, List.not_mem_nil, or_false, not_or] at h3
    by_cases h429 : s = 429
    · subst h429; simp [shouldRetryHttpError, hs, hc1, hc2, hc3]
    · by_cases h408 : s = 408
      · subst h408; simp [shouldRetryHttpError, hs, hc1, hc2, hc3]
      · simp [shouldRetryHttpError, hs, hc1, hc2, hc3, hn5, h429, h408, h1, h2]
        omega

/-- C1 witness: a denylisted status (403) is refused, a non-denylisted 4xx
status (410) is retried. -/
theorem shouldRetryHttpError_denylist_witness :
    shouldRetryHttpError ⟨none, some 403, none⟩ = false ∧
    shouldRetryHttpError ⟨none, some 410, none⟩ = true := by
  constructor
  · exact (shouldRetryHttpError_denylist ⟨none, some 403, none⟩ 403 (by decide) (by decide)
      (by decide) rfl).1 (by decide)
  · exact (shouldRetryHttpError_denylist ⟨none, some 410, none⟩ 410 (by decide) (by decide)
      (by decide) rfl).2 (by decide) (by decide) (by decide)

/-- C8: `shouldRetryHttpError` is true for the three network codes, for an
absent status, for 5xx, for 429, for 408, and for any status outside
400–599 (fail open). -/
theorem shouldRetryHttpError_retryable (e : JsError) :
    ((e.code = some "ECONNRESET" ∨ e.code = some "ENOTFOUND" ∨
        e.code = some "ECONNREFUSED") → shouldRetryHttpError e = true) ∧
    (e.status = none → shouldRetryHttpError e = true) ∧
    (∀ s, e.status = some s → 500 ≤ s → shouldRetryHttpError e = true) ∧
    (e.status = some 429 → shouldRetryHttpError e = true) ∧
    (e.status = some 408 → shouldRetryHttpError e = true) ∧
    (∀ s, e.status = some s → s < 400 ∨ 600 ≤ s → shouldRetryHttpError e = true) := by
  refine ⟨?_, ?_, ?_, ?_, ?_, ?_⟩
  · intro h
    simp [shouldRetryHttpError, h]
  · intro h
    by_cases hc : e.code = some "ECONNRESET" ∨ e.code = some "ENOTFOUND" ∨
        e.code = some "ECONNREFUSED" <;>
      simp [shouldRetryHttpError, h, hc]
  · intro s hs h5
    by_cases hc : e.code = some "ECONNRESET" ∨ e.code = some "ENOTFOUND" ∨
        e.code = some "ECONNREFUSED" <;>
      simp [shouldRetryHttpError, hs, hc, h5]
  · intro hs
    by_cases hc : e.code = some "ECONNRESET" ∨ e.code = some "ENOTFOUND" ∨
        e.code = some "ECONNREFUSED" <;>
      simp [shouldRetryHttpError, hs, hc]
  · intro hs
    by_cases hc : e.code = some "ECONNRESET" ∨ e.code = some "ENOTFOUND" ∨
        e.code = some "ECONNREFUSED" <;>
      simp [shouldRetryHttpError, hs, hc]
  · intro s hs h
    have h5 : ¬ 500 ≤ s ∨ 500 ≤ s := by omega
    by_cases hc : e.code = some "ECONNRESET" ∨ e.code = some "ENOTFOUND" ∨
        e.code = some "ECONNREFUSED"
    · simp [shouldRetryHttpError, hs, hc]
    · rcases h with h | h
      · have hn5 : ¬ 500 ≤ s := by omega
        have h429 : ¬ s = 429 := by omega
        have h408 : ¬ s = 408 := by omega
        have h4 : ¬ 400 ≤ s := by omega
        simp [shouldRetryHttpError, hs, hc, hn5, h429, h408, h4]
      · have h5 : 500 ≤ s := by omega
        simp [shouldRetryHttpError, hs, hc, h5]

/-- C8 witness: concrete errors for each retryable case. -/
theorem shouldRetryHttpError_retryable_witness :
    shouldRetryHttpError ⟨some "ENOTFOUND", some 404, none⟩ = true ∧
    shouldRetryHttpError ⟨none, none, none⟩ = true ∧
    shouldRetryHttpError ⟨none, some 503, none⟩ = true ∧
    shouldRetryHttpError ⟨none, some 429, none⟩ = true ∧
    shouldRetryHttpError ⟨none, some 408, none⟩ = true ∧
    shouldRetryHttpError ⟨none, some 302, none⟩ = true := by
  refine ⟨?_, ?_, ?_, ?_, ?_, ?_⟩
  · exact (shouldRetryHttpError_retryable ⟨some "ENOTFOUND", some 404, none⟩).1
      (Or.inr (Or.inl rfl))
  · exact (shouldRetryHttpError_retryable ⟨none, none, none⟩).2.1 rfl
  · exact (shouldRetryHttpError_retryable ⟨none, some 503, none⟩).2.2.1 503 rfl (by decide)
  · exact (shouldRetryHttpError_retryable ⟨none, some 429, none⟩).2.2.2.1 rfl
  · exact (shouldRetryHttpError_retryable ⟨none, some 408, none⟩).2.2.2.2.1 rfl
  · exact (shouldRetryHttpError_retryable ⟨none, some 302, none⟩).2.2.2.2.2 302 rfl
      (Or.inl (by decide))

/-- C7: each provider classifier is exactly the conjunction of the
HTTP-level classification with the negation of its own message-substring
denylist match; in particular a provider classifier can only veto, never
enable, a retry. -/
theorem providerClassifiers_conjunction (e : JsError) :
    (shouldRetryCronhooksError e =
      (shouldRetryHttpError e &&
        ! (cronhooksNonRetryableMessages.any fun msg =>
            messageHasSubstr (errorMessageOf e) msg))) ∧
    (shouldRetryWasenderError e =
      (shouldRetryHttpError e &&
        ! (wasenderNonRetryableMessages.any fun msg =>
            messageHasSubstr (errorMessageOf e) msg))) ∧
    (shouldRetryCronhooksError e = true → shouldRetryHttpError e = true) ∧
    (shouldRetryWasenderError e = true → shouldRetryHttpError e = true) := by
  cases h : shouldRetryHttpError e <;>
    simp [shouldRetryCronhooksError, shouldRetryWasenderError, h, decide_forall_eq_not_any]

/-- C7 witness: a retried Cronhooks error implies HTTP-level retryability
at a concrete input. -/
theorem providerClassifiers_conjunction_witness :
    shouldRetryHttpError ⟨none, some 500, some "boom"⟩ = true :=
  (providerClassifiers_conjunction ⟨none, some 500, some "boom"⟩).2.2.1 (by decide)

/-! ## Claim theorems: the retry executor -/

/-- C2: with no predicate (or an always-true predicate), an operation that
fails on every attempt is invoked exactly `maxRetries + 1` times and the
final rejection is the error of the last invocation, unmodified. -/
theorem executeWithRetry_exhausts_and_rethrows {E A : Type} (op : Nat → Except E A)
    (p : Option (E → Bool)) (config : RetryConfig) (rand : Nat → ℚ) (errs : Nat → E)
    (hop : ∀ k, op k = Except.error (errs k))
    (hp : ∀ f e, p = some f → f e = true) :
    (executeWithRetry op p config rand).outcome =
      Except.error (errs (config.maxRetries + 1)) ∧
    (executeWithRetry op p config rand).attempts = config.maxRetries + 1 := by
  have h := retryLoop_always_error op p config rand errs hop hp config.maxRetries 1
  rw [show 1 + config.maxRetries = config.maxRetries + 1 from Nat.add_comm 1 _] at h
  exact ⟨h.1, h.2⟩

/-- C2 witness at `maxRetries = 3`: four invocations, final rejection is
the error thrown on attempt 4. -/
theorem executeWithRetry_exhausts_witness :
    (executeWithRetry (E := Nat) (A := Nat) (fun k => Except.error k) none
        ⟨3, 1000, 30000, 2, false⟩ (fun _ => 0)).outcome = Except.error 4 ∧
    (executeWithRetry (E := Nat) (A := Nat) (fun k => Except.error k) none
        ⟨3, 1000, 30000, 2, false⟩ (fun _ => 0)).attempts = 4 :=
  executeWithRetry_exhausts_and_rethrows (fun k => Except.error k) none
    ⟨3, 1000, 30000, 2, false⟩ (fun _ => 0) (fun k => k) (fun _ => rfl)
    (fun _ _ h => nomatch h)

/-- C3: an operation that fails on its first `k ≤ maxRetries` invocations
(none vetoed) and succeeds on invocation `k + 1` yields that success value
after exactly `k + 1` invocations. -/
theorem executeWithRetry_success_stops {E A : Type} (op : Nat → Except E A)
    (p : Option (E → Bool)) (config : RetryConfig) (rand : Nat → ℚ) (errs : Nat → E)
    (a : A) (k : Nat) (hk : k ≤ config.maxRetries)
    (hfail : ∀ j, 1 ≤ j → j ≤ k → op j = Except.error (errs j))
    (hsucc : op (k + 1) = Except.ok a)
    (hp : ∀ f j, p = some f → 1 ≤ j → j ≤ k → f (errs j) = true) :
    (executeWithRetry op p config rand).outcome = Except.ok a ∧
    (executeWithRetry op p config rand).attempts = k + 1 := by
  have h := retryLoop_succeeds op p config rand errs a k config.maxRetries 1 hk
    (fun j h1 h2 => hfail j h1 (by omega))
    (by rw [show 1 + k = k + 1 from Nat.add_comm 1 k]; exact hsucc)
    (fun f j hf h1 h2 => hp f j hf h1 (by omega))
  rw [show 1 + k = k + 1 from Nat.add_comm 1 k] at h
  exact ⟨h.1, h.2⟩

/-- C3 witness: two failures then a success on attempt 3 under
`maxRetries = 3`: result 99 after exactly 3 invocations. -/
theorem executeWithRetry_success_stops_witness :
    (executeWithRetry (E := Nat) (A := Nat)
        (fun j => if j = 3 then Except.ok 99 else Except.error j) none
        ⟨3, 1000, 30000, 2, true⟩ (fun _ => 0)).outcome = Except.ok 99 ∧
    (executeWithRetry (E := Nat) (A := Nat)
        (fun j => if j = 3 then Except.ok 99 else Except.error j) none
        ⟨3, 1000, 30000, 2, true⟩ (fun _ => 0)).attempts = 3 :=
  executeWithRetry_success_stops
    (fun j => if j = 3 then Except.ok 99 else Except.error j) none
    ⟨3, 1000, 30000, 2, true⟩ (fun _ => 0) (fun j => j) 99 2 (by decide)
    (fun j h1 h2 => by
      show (if j = 3 then Except.ok 99 else Except.error j) = Except.error j
      rw [if_neg (by omega : ¬ j = 3)])
    (by simp)
    (fun _ _ hf => nomatch hf)

/-- C6: a supplied predicate rejecting the first failure short-circuits the
budget: one invocation, immediate rejection with that error, no sleep. -/
theorem executeWithRetry_predicate_short_circuits {E A : Type} (op : Nat → Except E A)
    (f : E → Bool) (config : RetryConfig) (rand : Nat → ℚ) (e : E)
    (hmr : 1 ≤ config.maxRetries) (hop : op 1 = Except.error e) (hf : f e = false) :
    (executeWithRetry op (some f) config rand).outcome = Except.error e ∧
    (executeWithRetry op (some f) config rand).attempts = 1 ∧
    (executeWithRetry op (some f) config rand).delays = [] := by
  obtain ⟨r, hr⟩ : ∃ r, config.maxRetries = r + 1 := ⟨config.maxRetries - 1, by omega⟩
  rw [executeWithRetry, hr]
  simp [retryLoop, hop, predicateVetoes, hf]

/-- C6 witness: an always-false predicate on an always-failing operation
under `maxRetries = 3`: one invocation, no delay slept. -/
theorem executeWithRetry_predicate_short_circuits_witness :
    (executeWithRetry (E := Nat) (A := Nat) (fun _ => Except.error 401)
        (some fun _ => false) ⟨3, 1000, 30000, 2, true⟩ (fun _ => 0)).outcome =
      Except.error 401 ∧
    (executeWithRetry (E := Nat) (A := Nat) (fun _ => Except.error 401)
        (some fun _ => false) ⟨3, 1000, 30000, 2, true⟩ (fun _ => 0)).attempts = 1 ∧
    (executeWithRetry (E := Nat) (A := Nat) (fun _ => Except.error 401)
        (some fun _ => false) ⟨3, 1000, 30000, 2, true⟩ (fun _ => 0)).delays = [] :=
  executeWithRetry_predicate_short_circuits (fun _ => Except.error 401)
    (fun _ => false) ⟨3, 1000, 30000, 2, true⟩ (fun _ => 0) 401 (by decide) rfl rfl

/-! ## Claim theorems: delay computation -/

/-- C4 counterexample: with jitter disabled, base 100 and multiplier 3/2,
attempt 4 computes `Math.floor(337.5) = 337`, not the exact min value
337.5 the claim asserts. -/
theorem calculateDelay_no_jitter_cex :
    calculateDelay 4 ⟨3, 100, 30000, 3/2, false⟩ 0 = 337 ∧
    backoffCap ⟨3, 100, 30000, 3/2, false⟩ 4 = 675/2 ∧
    ((337 : ℚ) ≠ 675/2) := by
  refine ⟨?_, ?_, by norm_num⟩
  · norm_num [calculateDelay]
  · norm_num [backoffCap]

/-- C4 (amended): with jitter disabled the computed delay is the floor of
`min(baseDelayMs * backoffMultiplier^(k-1), maxDelayMs)` and equals that
value exactly whenever it is an integer; within one `executeWithRetry`
invocation the i-th slept delay (0-based) is `calculateDelay` at attempt
`i + 1`; and for the example policy (maxRetries 3, base 1000, max 30000,
multiplier 2, no jitter) the delays before attempts 2, 3, 4 are exactly
1000, 2000, 4000 ms with the attempt-4 success returned. -/
theorem calculateDelay_no_jitter_floor :
    (∀ (config : RetryConfig) (rand : ℚ) (k : Nat), config.jitterEnabled = false →
      (calculateDelay k config rand = ⌊backoffCap config k⌋ ∧
        ∀ m : ℤ, backoffCap config k = (m : ℚ) → calculateDelay k config rand = m)) ∧
    (∀ (E A : Type) (op : Nat → Except E A) (p : Option (E → Bool))
      (config : RetryConfig) (rand : Nat → ℚ) (i : Nat),
      i < (executeWithRetry op p config rand).delays.length →
      (executeWithRetry op p config rand).delays[i]? =
        some (calculateDelay (i + 1) config (rand (i + 1)))) ∧
    (executeWithRetry (E := JsError) (A := String)
        (fun k => if k ≤ 3 then Except.error ⟨none, some 503, none⟩ else Except.ok "sent")
        none ⟨3, 1000, 30000, 2, false⟩ (fun _ => 0)).delays = [1000, 2000, 4000] ∧
    (executeWithRetry (E := JsError) (A := String)
        (fun k => if k ≤ 3 then Except.error ⟨none, some 503, none⟩ else Except.ok "sent")
        none ⟨3, 1000, 30000, 2, false⟩ (fun _ => 0)).outcome = Except.ok "sent" := by
  refine ⟨?_, ?_, ?_, ?_⟩
  · intro config rand k hj
    refine ⟨by simp [calculateDelay, backoffCap, hj], fun m hm => ?_⟩
    rw [show calculateDelay k config rand = ⌊backoffCap config k⌋ by
        simp [calculateDelay, backoffCap, hj],
      hm, Int.floor_intCast]
  · intro E A op p config rand i h
    have hr := retryLoop_delays_get op p config rand config.maxRetries 1 i h
    rw [show 1 + i = i + 1 from Nat.add_comm 1 i] at hr
    exact hr
  · norm_num [executeWithRetry, retryLoop, calculateDelay, predicateVetoes]
  · norm_num [executeWithRetry, retryLoop, calculateDelay, predicateVetoes]

/-- C4 witness: the floor formula evaluated at attempt 2 of the example
policy gives exactly 2000 ms (the random draw is irrelevant). -/
theorem calculateDelay_no_jitter_floor_witness :
    calculateDelay 2 ⟨3, 1000, 30000, 2, false⟩ (7/10) = 2000 :=
  (calculateDelay_no_jitter_floor.1 ⟨3, 1000, 30000, 2, false⟩ (7/10) 2 rfl).2 2000
    (by norm_num [backoffCap])

/-- C5 counterexample: with jitter enabled, a non-integer cap 100.5 and a
zero draw, the computed delay is `Math.floor(100.5) = 100`, which lies
below the claimed interval `[cap, cap*1.1]`. -/
theorem calculateDelay_jitter_cex :
    calculateDelay 1 ⟨3, 201/2, 30000, 2, true⟩ 0 = 100 ∧
    backoffCap ⟨3, 201/2, 30000, 2, true⟩ 1 = 201/2 ∧
    ¬ ((201/2 : ℚ) ≤ (100 : ℚ)) := by
  refine ⟨?_, ?_, by norm_num⟩
  · norm_num [calculateDelay]
  · norm_num [backoffCap]

/-- C5 (amended): with jitter enabled and a draw `u ∈ [0,1)`, the computed
delay is `⌊cap + cap*0.1*u⌋ ∈ [⌊cap⌋, cap*1.1]` where
`cap = min(baseDelayMs * backoffMultiplier^(k-1), maxDelayMs)`; when the
cap is an integer the interval is `[cap, cap*1.1]` exactly as claimed.
Jitter is added after capping, so the delay may exceed `maxDelayMs`. -/
theorem calculateDelay_jitter_bounds (config : RetryConfig) (u : ℚ) (k : Nat)
    (hj : config.jitterEnabled = true) (hu0 : 0 ≤ u) (hu1 : u < 1)
    (hb : 0 ≤ config.baseDelayMs) (hm : 0 ≤ config.backoffMultiplier)
    (hx : 0 ≤ config.maxDelayMs) :
    (⌊backoffCap config k⌋ ≤ calculateDelay k config u ∧
      (calculateDelay k config u : ℚ) ≤ backoffCap config k * (11/10)) ∧
    (∀ m : ℤ, backoffCap config k = (m : ℚ) →
      (m ≤ calculateDelay k config u ∧
        (calculateDelay k config u : ℚ) ≤ (m : ℚ) * (11/10))) := by
  have hcap0 : 0 ≤ backoffCap config k :=
    le_min (mul_nonneg hb (pow_nonneg hm _)) hx
  have hcd : calculateDelay k config u =
      ⌊backoffCap config k + backoffCap config k * (1/10) * u⌋ := by
    simp [calculateDelay, backoffCap, hj]
  have hten : (0 : ℚ) ≤ 1/10 := by norm_num
  have hj0 : 0 ≤ backoffCap config k * (1/10) * u :=
    mul_nonneg (mul_nonneg hcap0 hten) hu0
  have hv1 : backoffCap config k ≤
      backoffCap config k + backoffCap config k * (1/10) * u := by linarith
  have hv2 : backoffCap config k + backoffCap config k * (1/10) * u ≤
      backoffCap config k * (11/10) := by
    have := mul_le_mul_of_nonneg_left hu1.le (mul_nonneg hcap0 hten)
    rw [mul_one] at this
    linarith
  have hlow : ⌊backoffCap config k⌋ ≤ calculateDelay k config u := by
    rw [hcd]; exact Int.floor_le_floor hv1
  have hhigh : (calculateDelay k config u : ℚ) ≤ backoffCap config k * (11/10) := by
    rw [hcd]
    exact (Int.floor_le _).trans hv2
  refine ⟨⟨hlow, hhigh⟩, fun m hmm => ⟨?_, ?_⟩⟩
  · rw [hmm, Int.floor_intCast] at hlow; exact hlow
  · rw [hmm] at hhigh; exact hhigh

/-- C5 witness: at the example policy with `u = 1/2` the attempt-1 delay
lies in `[1000, 1100]`; and at full cap (base = max = 30000) the same draw
yields 31500 ms, exceeding `maxDelayMs`. -/
theorem calculateDelay_jitter_bounds_witness :
    (1000 ≤ calculateDelay 1 ⟨3, 1000, 30000, 2, true⟩ (1/2) ∧
      (calculateDelay 1 ⟨3, 1000, 30000, 2, true⟩ (1/2) : ℚ) ≤ (1000 : ℚ) * (11/10)) ∧
    calculateDelay 1 ⟨3, 30000, 30000, 2, true⟩ (1/2) = 31500 := by
  constructor
  · exact (calculateDelay_jitter_bounds ⟨3, 1000, 30000, 2, true⟩ (1/2) 1 rfl
      (by norm_num) (by norm_num) (by norm_num) (by norm_num) (by norm_num)).2 1000
      (by norm_num [backoffCap])
  · norm_num [calculateDelay]

/-! ## Claim theorems: the concurrent fan-out -/

/-- C9: `executeMultipleWithRetry` resolves with all results in input order
when every per-operation run fulfils, and rejects with some ultimately
failing operation's final error as soon as any run is rejected
(all-or-nothing). -/
theorem executeMultipleWithRetry_allOrNothing {E A : Type} (ops : List (OpSpec E A))
    (rand : Nat → Nat → ℚ) :
    (∀ vs : List A,
      (executeMultipleRuns ops rand).map RetryResult.outcome = vs.map Except.ok →
      executeMultipleWithRetry ops rand = Except.ok vs) ∧
    (∀ e, Except.error e ∈ (executeMultipleRuns ops rand).map RetryResult.outcome →
      ∃ e2, executeMultipleWithRetry ops rand = Except.error e2 ∧
        Except.error e2 ∈ (executeMultipleRuns ops rand).map RetryResult.outcome) := by
  constructor
  · intro vs h
    rw [executeMultipleWithRetry, h, promiseAll_map_ok]
  · intro e h
    obtain ⟨e2, he2, hmem⟩ := promiseAll_error_mem _ ⟨e, h⟩
    exact ⟨e2, by rw [executeMultipleWithRetry, he2], hmem⟩

/-- C9 witness: two immediately-succeeding operations resolve to `[7, 8]`;
a fan-out containing an exhausted operation rejects with its final error. -/
theorem executeMultipleWithRetry_allOrNothing_witness :
    executeMultipleWithRetry (E := String) (A := Nat)
      [⟨fun _ => Except.ok 7, "a", ⟨3, 1000, 30000, 2, true⟩⟩,
       ⟨fun _ => Except.ok 8, "b", ⟨3, 1000, 30000, 2, true⟩⟩]
      (fun _ _ => 0) = Except.ok [7, 8] ∧
    (∃ e2, executeMultipleWithRetry (E := String) (A := Nat)
        [⟨fun _ => Except.error "boom", "c", ⟨0, 1000, 30000, 2, false⟩⟩]
        (fun _ _ => 0) = Except.error e2 ∧
      Except.error e2 ∈ (executeMultipleRuns (E := String) (A := Nat)
        [⟨fun _ => Except.error "boom", "c", ⟨0, 1000, 30000, 2, false⟩⟩]
        (fun _ _ => 0)).map RetryResult.outcome) := by
  constructor
  · exact (executeMultipleWithRetry_allOrNothing _ _).1 [7, 8] rfl
  · refine (executeMultipleWithRetry_allOrNothing _ _).2 "boom" ?_
    show Except.error "boom" ∈ [Except.error "boom"]
    exact List.mem_singleton_self _

/-- C10: the fan-out passes no retryability predicate to the executor: its
`i`-th run is `executeWithRetry` with predicate `none`, and any operation
that keeps failing — with arbitrary error objects, regardless of status or
message — is still attempted `maxRetries + 1` times before its final error
surfaces; the error classifiers are never consulted on this path. -/
theorem executeMultipleWithRetry_no_predicate {A : Type} (ops : List (OpSpec JsError A))
    (rand : Nat → Nat → ℚ) (i : Nat) (op : OpSpec JsError A) (hi : ops[i]? = some op)
    (errs : Nat → JsError) (hop : ∀ k, op.operation k = Except.error (errs k)) :
    (executeMultipleRuns ops rand)[i]? =
      some (executeWithRetry op.operation none op.config (rand i)) ∧
    (executeWithRetry op.operation none op.config (rand i)).attempts =
      op.config.maxRetries + 1 ∧
    (executeWithRetry op.operation none op.config (rand i)).outcome =
      Except.error (errs (op.config.maxRetries + 1)) := by
  have h := retryLoop_always_error op.operation none op.config (rand i) errs hop
    (fun _ _ hf => nomatch hf) op.config.maxRetries 1
  rw [show 1 + op.config.maxRetries = op.config.maxRetries + 1 from Nat.add_comm 1 _] at h
  refine ⟨?_, h.2, h.1⟩
  rw [executeMultipleRuns, List.getElem?_map, List.getElem?_enum, hi]
  rfl

/-- C10 witness: an operation always failing with a 401 error — which all
three classifiers refuse to retry — is nevertheless attempted
`maxRetries + 1 = 3` times inside the fan-out. -/
theorem executeMultipleWithRetry_no_predicate_witness :
    shouldRetryHttpError ⟨none, some 401, none⟩ = false ∧
    shouldRetryCronhooksError ⟨none, some 401, none⟩ = false ∧
    shouldRetryWasenderError ⟨none, some 401, none⟩ = false ∧
    (executeWithRetry (E := JsError) (A := Nat)
        (fun _ => Except.error ⟨none, some 401, none⟩) none
        ⟨2, 1000, 30000, 2, false⟩ (fun _ => 0)).attempts = 3 ∧
    (executeWithRetry (E := JsError) (A := Nat)
        (fun _ => Except.error ⟨none, some 401, none⟩) none
        ⟨2, 1000, 30000, 2, false⟩ (fun _ => 0)).outcome =
      Except.error ⟨none, some 401, none⟩ := by
  have h := executeMultipleWithRetry_no_predicate (A := Nat)
    [⟨fun _ => Except.error ⟨none, some 401, none⟩, "w", ⟨2, 1000, 30000, 2, false⟩⟩]
    (fun _ _ => 0) 0 _ rfl (fun _ => ⟨none, some 401, none⟩) (fun _ => rfl)
  exact ⟨by decide, by decide, by decide, h.2.1, h.2.2⟩

end RetryUtil
